import Mathlib

/-!
Verification of the shipment progression engine in `src/server.py` of
`backend-tracabilite`, as a shallow embedding in Lean.

Randomness is passed in as parameters: each `random.randint`, `random.uniform`
and `random.random` draw of the Python source becomes an explicit argument of
the embedded function, so every theorem quantifies over the possible draws.
Python floats are modelled as rationals; wall-clock timestamps (only ever
stored inside history entries, never read back) are dropped, so a history
entry is just its status label.
-/

/-- Python `int()` truncates toward zero; every argument handed to it in
`generate_step_durations` is nonnegative, where truncation and floor agree. -/
def pyInt (q : ℚ) : ℤ := ⌊q⌋

/-- Python's `max(range(n), key=lambda i: xs[i])`: the index of the first
maximal entry of `xs` (Python's `max` keeps the earliest maximum). -/
def argmaxFirst (xs : List ℤ) : ℕ :=
  (List.range xs.length).foldl (fun best i => if xs.getD best 0 < xs.getD i 0 then i else best) 0

/-- Source lines 46-83, the Duration Allocator. `total_time` is the drawn
`randint(55, 60)`, `transit_prop` the drawn `uniform(0.4, 0.5)` and `ws` the
six `random.random()` weights. -/
def generate_step_durations (total_time : ℤ) (transit_prop : ℚ) (ws : List ℚ) : List ℤ :=
  let transit_time : ℤ := pyInt ((total_time : ℚ) * transit_prop)
  let rest_time : ℤ := total_time - transit_time
  let s : ℚ := ws.sum
  let ws2 : List ℚ := if s = 0 then List.replicate 6 1 else ws
  let s2 : ℚ := if s = 0 then 6 else s
  let parts : List ℤ := ws2.map (fun w => pyInt (w / s2 * (rest_time : ℚ)))
  let diff : ℤ := rest_time - parts.sum
  let parts2 : List ℤ :=
    if diff ≠ 0 then
      let imax := argmaxFirst parts
      parts.set imax (parts.getD imax 0 + diff)
    else parts
  let durations : List ℤ := parts2.take 3 ++ [transit_time] ++ parts2.drop 3
  let durations2 : List ℤ := durations.map (fun d => if d < 1 then 1 else d)
  let sum_diff : ℤ := total_time - durations2.sum
  if sum_diff > 0 then
    let imax := argmaxFirst durations2
    durations2.set imax (durations2.getD imax 0 + sum_diff)
  else durations2

/-- Source line 89-90: the cancellation chance computed by `handle_incident`. -/
def incidentChance (days : ℤ) : ℤ := min (10 + (days - 1) * 5) 100

/-- Source line 91: the incident outcome; `true` means the delivery is
cancelled. `draw` is the drawn `randint(1, 100)`. -/
def incidentOutcome (days draw : ℤ) : Bool := decide (draw ≤ incidentChance days)

/-- C1: For every run of the Duration Allocator the returned sequence has
exactly 7 entries, every entry is at least 1, and the sum equals the drawn
total T.  This FAILS on the code: with T = 55, transit proportion 0.4 and
weights (0.01, 1, 1, 1, 1, 1), the proportional floors produce a zero-length
first stage, the floor-up-to-1 pass raises the sum to 56, and the final
correction branch (`if sum_diff > 0`) cannot fire because after the floor-up
pass `sum_diff` is never positive — so the result sums to 56, not 55. -/
theorem generate_step_durations_sum_mismatch :
    generate_step_durations 55 (2/5) [1/100, 1, 1, 1, 1, 1] = [1, 9, 6, 22, 6, 6, 6] ∧
    (generate_step_durations 55 (2/5) [1/100, 1, 1, 1, 1, 1]).sum = 56 ∧ (56 : ℤ) ≠ 55 := by
  have h : generate_step_durations 55 (2/5) [1/100, 1, 1, 1, 1, 1] = [1, 9, 6, 22, 6, 6, 6] := by
    simp only [generate_step_durations, pyInt, argmaxFirst]
    norm_num [List.range_succ, List.sum_cons]
  exact ⟨h, by rw [h]; decide, by decide⟩

/-- C3: for every incident with drawn `days ∈ [1,9]` the Resolver computes
`chance = min(10 + (days-1)*5, 100)` and the outcome is cancellation exactly
when the drawn integer in `[1,100]` is at most that chance (the cap at 100 is
inert for `days ≤ 9`); for `days = 5` the chance is 30, a draw of 20 cancels
and a draw of 80 resumes. -/
theorem incidentOutcome_spec (days draw : ℤ) (h1 : 1 ≤ days) (h9 : days ≤ 9)
    (hd1 : 1 ≤ draw) (hd100 : draw ≤ 100) :
    (incidentOutcome days draw = true ↔ draw ≤ min (10 + (days - 1) * 5) 100) ∧
    (incidentOutcome days draw = true ↔ draw ≤ 10 + (days - 1) * 5) ∧
    incidentChance 5 = 30 ∧
    incidentOutcome 5 20 = true ∧ incidentOutcome 5 80 = false := by
  refine ⟨?_, ?_, by decide, by decide, by decide⟩
  · simp [incidentOutcome, incidentChance]
  · have hcap : min (10 + (days - 1) * 5) 100 = 10 + (days - 1) * 5 := by
      rw [min_eq_left]; omega
    simp [incidentOutcome, incidentChance, hcap]

/-- Witness for C3 at days = 5, draw = 20. -/
theorem incidentOutcome_spec_witness :
    (incidentOutcome 5 20 = true ↔ (20 : ℤ) ≤ min (10 + (5 - 1) * 5) 100) ∧
    (incidentOutcome 5 20 = true ↔ (20 : ℤ) ≤ 10 + (5 - 1) * 5) ∧
    incidentChance 5 = 30 ∧
    incidentOutcome 5 20 = true ∧ incidentOutcome 5 80 = false :=
  incidentOutcome_spec 5 20 (by decide) (by decide) (by decide) (by decide)

/-- The shipment record persisted by `generate_tracking_for` (source lines
198-214), restricted to the fields the engine reads or writes.  The pure CRUD
fields `client`, `quantity`, `destination` and `creation_timestamp` are never
read by the Scheduler or a Resolver and are omitted; a history entry keeps
only its status label (the paired `datetime.now().ctime()` timestamp is never
read back). -/
structure Shipment where
  tracking : String
  status : String
  history : List String
  currentStepIndex : ℕ
  finished : Bool
  onHold : Bool
  stepDurations : List ℤ
  timeInStep : ℚ
  incidentDecision : Bool
  incidentChecked : Bool
  archived : Bool
deriving DecidableEq

/-- The fixed 7-stage status sequence (source lines 116-124). -/
def statuses : List String :=
  ["Commande confirmée", "Colis préparé", "Pris en charge par le transporteur",
   "En transit", "Arrivé au centre de distribution", "En cours de livraison", "Livré"]

/-- The f-string of source line 161. -/
def incidentStatusMsg (days : ℕ) : String :=
  "Incident signalé : Retard estimé : " ++ toString days ++
    (if 1 < days then " jours" else " jour")

/-- Source lines 193-217: the Shipment Factory.  The drawn tracking number,
the drawn step durations and the drawn incident eligibility
(`randint(1,100) <= 15`) are parameters. -/
def generate_tracking_for (tracking : String) (durations : List ℤ) (incident : Bool) : Shipment :=
  { tracking := tracking
    status := "Commande confirmée"
    history := ["Commande confirmée"]
    currentStepIndex := 0
    finished := false
    onHold := false
    stepDurations := durations
    timeInStep := 0
    incidentDecision := incident
    incidentChecked := false
    archived := false }

/-- The Resolver's cancelled write (source lines 97-103): its `$set` touches
only `status` and `finished` and its `$push` appends one history entry;
`on_hold` is left as it was. -/
def cancelUpdate (r : Shipment) : Shipment :=
  { r with status := "Livraison annulée", finished := true,
           history := r.history ++ ["Livraison annulée"] }

/-- The Resolver's resumed write (source lines 104-112): `$set status`,
`$push history`, `$unset on_hold` (an absent `on_hold` reads back as `False`
through `shipment.get("on_hold", False)`). -/
def resumeUpdate (r : Shipment) : Shipment :=
  { r with status := "En transit", history := r.history ++ ["En transit"], onHold := false }

/-- MongoDB `update_one`: apply `f` to the first record matching the tracking
id, leave everything else unchanged. -/
def storeUpdate (tracking : String) (f : Shipment → Shipment) : List Shipment → List Shipment
  | [] => []
  | s :: rest =>
    if s.tracking = tracking then f s :: rest else s :: storeUpdate tracking f rest

/-- Source lines 85-112, `handle_incident` after its `time.sleep(days * 5)`:
compute the outcome, then under the lock re-read the shipment by tracking id
(`find_one`) and, if present, apply the cancelled or resumed write.  `days`
is the drawn `randint(1,9)` passed by the Scheduler and `draw` the drawn
`randint(1,100)`. -/
def handle_incident (tracking : String) (days draw : ℤ) (store : List Shipment) :
    List Shipment :=
  let outcome := incidentOutcome days draw
  match store.find? (fun s => decide (s.tracking = tracking)) with
  | none => store
  | some _ =>
    if outcome then storeUpdate tracking cancelUpdate store
    else storeUpdate tracking resumeUpdate store

/-- One shipment's processing inside a Scheduler tick (source lines 136-191),
as a function of the snapshot of the record read by the tick's `find` and of
the tick's elapsed time `δ`; `days` is the `randint(1,9)` drawn in the
trigger branch.  The first component is the `update_one` write the branch
performs (`none` when the branch writes nothing: the shipment was filtered
out of the tick's query, or it is on hold); the second component is whether a
Resolver thread is spawned. -/
def schedUpdate (snap : Shipment) (δ : ℚ) (days : ℕ) :
    Option (Shipment → Shipment) × Bool :=
  if snap.finished || snap.archived then (none, false)
  else if 6 ≤ snap.currentStepIndex then
    (some (fun r => { r with finished := true }), false)
  else if snap.onHold then (none, false)
  else
    let t := snap.timeInStep + δ
    if snap.currentStepIndex = 3 ∧ snap.incidentChecked = false ∧
        snap.incidentDecision = true then
      (some (fun r =>
        { r with incidentChecked := true, status := incidentStatusMsg days,
                 onHold := true, history := r.history ++ ["Incident signalé"] }), true)
    else if (↑(snap.stepDurations.getD snap.currentStepIndex 0) : ℚ) ≤ t then
      (some (fun r =>
        { r with currentStepIndex := snap.currentStepIndex + 1,
                 status := statuses.getD (snap.currentStepIndex + 1) "",
                 timeInStep := 0,
                 finished := if 6 ≤ snap.currentStepIndex + 1 then true else r.finished,
                 history := r.history ++ [statuses.getD (snap.currentStepIndex + 1) ""] }), false)
    else
      (some (fun r => { r with timeInStep := t }), false)

/-- One unit tick applied to a single shipment with no interleaving: the
snapshot is the record itself and `δ = 1` (the source's tick sleeps 1
second).  The `days` draw only matters inside the trigger branch. -/
def tick (r : Shipment) : Shipment := ((schedUpdate r 1 0).1.getD id) r

/-- Helper: an on-hold snapshot makes the tick's write either nothing at all
or the defensive close-out, which touches only `finished`. -/
lemma schedUpdate_onHold_aux (snap : Shipment) (δ : ℚ) (days : ℕ)
    (h : snap.onHold = true) :
    (∀ f, (schedUpdate snap δ days).1 = some f →
      ∀ r, (f r).timeInStep = r.timeInStep ∧ (f r).currentStepIndex = r.currentStepIndex) ∧
    (schedUpdate snap δ days).2 = false := by
  unfold schedUpdate
  by_cases h1 : (snap.finished || snap.archived) = true
  · simp [h1]
  · simp only [h1, if_false, Bool.not_eq_true] at *
    by_cases h2 : 6 ≤ snap.currentStepIndex
    · simp only [if_pos h2]
      refine ⟨?_, rfl⟩
      rintro f hf r
      injection hf with hf; subst hf
      exact ⟨rfl, rfl⟩
    · simp [if_neg h2, h]

/-- C4: if `onHold` is true in the snapshot a tick reads for a shipment, the
write that tick performs for the shipment (there is at most the defensive
close-out, which touches only `finished`) changes neither `timeInStep` nor
`currentStepIndex`, and no Resolver is spawned; and conversely any tick write
that moves `currentStepIndex` comes from a snapshot with `onHold = false`. -/
theorem schedUpdate_onHold_frozen (snap : Shipment) (δ : ℚ) (days : ℕ)
    (h : snap.onHold = true) :
    (∀ f, (schedUpdate snap δ days).1 = some f →
      ∀ r, (f r).timeInStep = r.timeInStep ∧ (f r).currentStepIndex = r.currentStepIndex) ∧
    (schedUpdate snap δ days).2 = false ∧
    (∀ f, (schedUpdate snap δ days).1 = some f →
      ∀ r, (f r).currentStepIndex ≠ r.currentStepIndex → snap.onHold = false) := by
  obtain ⟨h1, h2⟩ := schedUpdate_onHold_aux snap δ days h
  refine ⟨h1, h2, ?_⟩
  intro f hf r hne
  exact absurd (h1 f hf r).2 hne

/-- A concrete fresh shipment used by the witnesses below. -/
def shipA : Shipment := generate_tracking_for "11111111" [2, 8, 8, 22, 3, 3, 3] false

/-- A second concrete fresh shipment. -/
def shipB : Shipment := generate_tracking_for "22222222" [2, 8, 8, 22, 3, 3, 3] false

/-- Witness for C4 at a concrete on-hold snapshot at the transit stage and at
a concrete on-hold snapshot at the terminal index (close-out write). -/
theorem schedUpdate_onHold_frozen_witness :
    (schedUpdate { shipA with onHold := true, currentStepIndex := 3 } 1 0).2 = false ∧
    ((fun r : Shipment => { r with finished := true }) shipA).timeInStep = shipA.timeInStep := by
  constructor
  · exact (schedUpdate_onHold_frozen { shipA with onHold := true, currentStepIndex := 3 }
      1 0 rfl).2.1
  · exact ((schedUpdate_onHold_frozen { shipA with onHold := true, currentStepIndex := 6 }
      1 0 rfl).1 _ rfl shipA).1

/-- C6: if the Resolver's re-read by tracking id (`find_one` under the lock)
finds no matching shipment, `handle_incident` returns without mutating any
state: the store is unchanged, a completed no-op rather than an error. -/
theorem handle_incident_missing_noop (tracking : String) (days draw : ℤ)
    (store : List Shipment)
    (h : store.find? (fun s => decide (s.tracking = tracking)) = none) :
    handle_incident tracking days draw store = store := by
  unfold handle_incident
  rw [h]

/-- Witness for C6: a Resolver completion for a tracking id absent from the
store leaves the store untouched. -/
theorem handle_incident_missing_noop_witness :
    handle_incident "99999999" 5 20 [shipA, shipB] = [shipA, shipB] :=
  handle_incident_missing_noop "99999999" 5 20 [shipA, shipB] (by decide)

/-- C7: a Resolver completion that finds the shipment applies exactly the
cancelled write (status "Livraison annulée", `finished := true`, one history
entry appended, `onHold` untouched) or the resumed write (status "En
transit", `onHold` cleared, one history entry appended, `currentStepIndex`
untouched, so a shipment held at index 3 stays at 3); neither write touches
`timeInStep`, and while a shipment is on hold the Scheduler's write never
accounts time to it, so after a resume it progresses from the `timeInStep`
it had when the incident was declared (0, as the trigger fires on the first
tick at the stage and writes no time). -/
theorem handle_incident_found (tracking : String) (days draw : ℤ)
    (store : List Shipment) (s : Shipment)
    (h : store.find? (fun x => decide (x.tracking = tracking)) = some s) :
    (incidentOutcome days draw = true →
      handle_incident tracking days draw store = storeUpdate tracking cancelUpdate store) ∧
    (incidentOutcome days draw = false →
      handle_incident tracking days draw store = storeUpdate tracking resumeUpdate store) ∧
    (∀ r : Shipment,
      (cancelUpdate r).status = "Livraison annulée" ∧
      (cancelUpdate r).finished = true ∧
      (cancelUpdate r).history.length = r.history.length + 1 ∧
      (cancelUpdate r).onHold = r.onHold ∧
      (cancelUpdate r).currentStepIndex = r.currentStepIndex ∧
      (cancelUpdate r).timeInStep = r.timeInStep) ∧
    (∀ r : Shipment,
      (resumeUpdate r).status = "En transit" ∧
      (resumeUpdate r).onHold = false ∧
      (resumeUpdate r).history.length = r.history.length + 1 ∧
      (resumeUpdate r).currentStepIndex = r.currentStepIndex ∧
      (resumeUpdate r).timeInStep = r.timeInStep ∧
      (resumeUpdate r).finished = r.finished) ∧
    (∀ (snap : Shipment) (δ : ℚ) (days2 : ℕ) (f : Shipment → Shipment),
      snap.onHold = true → (schedUpdate snap δ days2).1 = some f →
      ∀ r : Shipment, (f r).timeInStep = r.timeInStep) := by
  refine ⟨?_, ?_, ?_, ?_, ?_⟩
  · intro ho; unfold handle_incident; rw [h]; simp [ho]
  · intro ho; unfold handle_incident; rw [h]; simp [ho]
  · intro r; refine ⟨rfl, rfl, by simp [cancelUpdate], rfl, rfl, rfl⟩
  · intro r; refine ⟨rfl, rfl, by simp [resumeUpdate], rfl, rfl, rfl⟩
  · intro snap δ days2 f hHold hf r
    exact ((schedUpdate_onHold_aux snap δ days2 hHold).1 f hf r).1

/-- The held shipment used by the C7 witness. -/
def shipHeld : Shipment := { shipA with onHold := true, currentStepIndex := 3 }

/-- Witness for C7: a held shipment at the transit stage, cancelled by a draw
of 20 with days = 5, and resumed by a draw of 80. -/
theorem handle_incident_found_witness :
    (handle_incident "11111111" 5 20 [shipHeld] =
      storeUpdate "11111111" cancelUpdate [shipHeld]) ∧
    (handle_incident "11111111" 5 80 [shipHeld] =
      storeUpdate "11111111" resumeUpdate [shipHeld]) ∧
    (resumeUpdate shipHeld).currentStepIndex = 3 := by
  refine ⟨?_, ?_, ?_⟩
  · exact (handle_incident_found "11111111" 5 20 [shipHeld] shipHeld (by decide)).1 (by decide)
  · exact (handle_incident_found "11111111" 5 80 [shipHeld] shipHeld (by decide)).2.1 (by decide)
  · exact ((handle_incident_found "11111111" 5 80 [shipHeld] shipHeld
      (by decide)).2.2.2.1 shipHeld).2.2.2.1

/-- The per-tick for-loop of `simulation_loop` (source lines 136-191) over
the list of snapshots returned by the tick's `find`, with a fallible store:
`fails t = true` means the `update_one` for tracking `t` raises.  As in the
source there is no try/except around the loop body, so a raised write aborts
the remaining iterations of the tick; the returned Bool records whether the
tick aborted.  Branches that perform no write cannot fail. -/
def tickLoop (δ : ℚ) (days : ℕ) (fails : String → Bool) :
    List Shipment → List Shipment → List Shipment × Bool
  | [], store => (store, false)
  | snap :: rest, store =>
    match (schedUpdate snap δ days).1 with
    | none => tickLoop δ days fails rest store
    | some f =>
      if fails snap.tracking then (store, true)
      else tickLoop δ days fails rest (storeUpdate snap.tracking f store)

/-- C8 counterexample: with two fresh shipments A and B read for the same
tick and a store write failure on A only, the tick aborts: B — which does
not fail — is left completely unprocessed (its `timeInStep` stays 0), while
the same tick without the failure advances both `timeInStep`s to 1.  So a
per-shipment failure is NOT isolated: it aborts the processing of the other
shipments read for that tick. -/
theorem tickLoop_not_isolated :
    tickLoop 1 0 (fun t => decide (t = "11111111")) [shipA, shipB] [shipA, shipB] =
      ([shipA, shipB], true) ∧
    (tickLoop 1 0 (fun _ => false) [shipA, shipB] [shipA, shipB]).1.map
        Shipment.timeInStep = [1, 1] ∧
    shipB.timeInStep = 0 := by
  refine ⟨?_, ?_, rfl⟩
  · simp only [tickLoop, schedUpdate, shipA, shipB, generate_tracking_for]
    norm_num
  · simp only [tickLoop, schedUpdate, shipA, shipB, generate_tracking_for, storeUpdate]
    norm_num
    simp

/-- C8 amended: a store write failure on one shipment aborts the tick at that
shipment: the shipments before it in the tick's list are processed normally,
and the shipments after it are not processed at all. -/
theorem tickLoop_abort_at_first_failure (δ : ℚ) (days : ℕ) (fails : String → Bool)
    (pre : List Shipment) (s : Shipment) (post : List Shipment) (store : List Shipment)
    (hpre : ∀ x ∈ pre, (schedUpdate x δ days).1 = none ∨ fails x.tracking = false)
    (hs : ((schedUpdate s δ days).1).isSome = true) (hf : fails s.tracking = true) :
    tickLoop δ days fails (pre ++ s :: post) store =
      ((tickLoop δ days fails pre store).1, true) := by
  induction pre generalizing store with
  | nil =>
    obtain ⟨f, hfs⟩ := Option.isSome_iff_exists.mp hs
    simp only [List.nil_append, tickLoop]
    rw [hfs]
    simp [hf]
  | cons x rest ih =>
    have hx := hpre x (List.mem_cons_self x rest)
    have hrest : ∀ y ∈ rest, (schedUpdate y δ days).1 = none ∨ fails y.tracking = false :=
      fun y hy => hpre y (List.mem_cons_of_mem x hy)
    simp only [List.cons_append, tickLoop]
    rcases hx with hnone | hok
    · rw [hnone]
      exact ih _ hrest
    · cases hcase : (schedUpdate x δ days).1 with
      | none => exact ih _ hrest
      | some f =>
        rw [hok]
        simp only [if_false, Bool.false_eq_true]
        exact ih _ hrest

/-- Witness for C8's amended statement: failure on A with B after it in the
tick list; the tick aborts immediately with the store untouched. -/
theorem tickLoop_abort_at_first_failure_witness :
    tickLoop 1 0 (fun t => decide (t = "11111111")) ([] ++ shipA :: [shipB])
        [shipA, shipB] =
      ((tickLoop 1 0 (fun t => decide (t = "11111111")) [] [shipA, shipB]).1, true) := by
  refine tickLoop_abort_at_first_failure 1 0 _ [] shipA [shipB] [shipA, shipB]
    (by intro x hx; cases hx) ?_ (by decide)
  simp only [schedUpdate, shipA, generate_tracking_for]
  norm_num

/-- The single-shipment state reached after the stage transitions 0→1→…→i of
a no-incident shipment driven by unit ticks: at index `i` with `timeInStep`
freshly reset to 0 and one history entry per status reached so far. -/
def stateAt (tr : String) (durs : List ℤ) (i : ℕ) : Shipment :=
  { tracking := tr
    status := statuses.getD i ""
    history := statuses.take (i + 1)
    currentStepIndex := i
    finished := decide (6 ≤ i)
    onHold := false
    stepDurations := durs
    timeInStep := 0
    incidentDecision := false
    incidentChecked := false
    archived := false }

lemma statuses_take_push (i : ℕ) (h : i < 7) :
    statuses.take i ++ [statuses.getD i ""] = statuses.take (i + 1) := by
  revert h; revert i; decide

/-- Characterization of one unit tick on a running, unfiltered, no-incident
shipment below the terminal index. -/
lemma tick_run_eq (r : Shipment) (hfin : r.finished = false) (harch : r.archived = false)
    (hidx : r.currentStepIndex < 6) (hhold : r.onHold = false)
    (hdec : r.incidentDecision = false) :
    tick r =
      if (↑(r.stepDurations.getD r.currentStepIndex 0) : ℚ) ≤ r.timeInStep + 1 then
        { r with currentStepIndex := r.currentStepIndex + 1,
                 status := statuses.getD (r.currentStepIndex + 1) "",
                 timeInStep := 0,
                 finished := decide (6 ≤ r.currentStepIndex + 1),
                 history := r.history ++ [statuses.getD (r.currentStepIndex + 1) ""] }
      else { r with timeInStep := r.timeInStep + 1 } := by
  unfold tick schedUpdate
  rw [hfin, harch]
  simp only [Bool.or_self, Bool.false_eq_true, if_false]
  rw [if_neg (by omega : ¬ 6 ≤ r.currentStepIndex)]
  rw [hhold]
  simp only [Bool.false_eq_true, if_false]
  rw [if_neg (by simp [hdec])]
  split
  · simp only [Option.getD_some]
    congr 1
    split
    · simp [decide_eq_true_eq, *]
    · rw [hfin]; simp [*]
  · simp [hfin, hhold, harch]

/-- A finished (or archived) shipment is excluded from the tick's query and
is left untouched. -/
lemma tick_finished_fixed (r : Shipment) (h : r.finished = true) : tick r = r := by
  unfold tick schedUpdate
  rw [h]
  simp

/-- Within stage `i`, `k` unit ticks accumulate `timeInStep = k` as long as
the stage duration is not yet reached. -/
lemma iterate_midstage (tr : String) (durs : List ℤ) (i : ℕ) (hi : i < 6) :
    ∀ k : ℕ, (k : ℤ) < durs.getD i 0 →
      tick^[k] (stateAt tr durs i) = { stateAt tr durs i with timeInStep := (k : ℚ) } := by
  intro k
  induction k with
  | zero => intro _; simp [stateAt]
  | succ k ih =>
    intro hk
    have hk' : (k : ℤ) < durs.getD i 0 := by push_cast at hk ⊢; omega
    rw [Function.iterate_succ_apply', ih hk']
    rw [tick_run_eq _ (by simp [stateAt, Nat.not_le.mpr hi]) rfl (by simpa [stateAt] using hi)
      rfl rfl]
    rw [if_neg]
    · simp only [stateAt]
      congr 1
      push_cast
      ring
    · simp only [stateAt]
      intro hcon
      have : (↑(durs.getD i 0) : ℚ) ≤ (k : ℚ) + 1 := hcon
      have h2 : (↑(durs.getD i 0) : ℚ) ≤ ((k + 1 : ℤ) : ℚ) := by push_cast; push_cast at this; linarith
      have h3 : durs.getD i 0 ≤ (k + 1 : ℤ) := by exact_mod_cast h2
      omega

/-- Completing stage `i` takes exactly its duration in unit ticks. -/
lemma iterate_stage (tr : String) (durs : List ℤ) (i : ℕ) (hi : i < 6)
    (h1 : 1 ≤ durs.getD i 0) :
    tick^[(durs.getD i 0).toNat] (stateAt tr durs i) = stateAt tr durs (i + 1) := by
  set m : ℕ := (durs.getD i 0).toNat with hm
  have hm1 : 1 ≤ m := by omega
  have hmd : (m : ℤ) = durs.getD i 0 := by omega
  have hstep : m = (m - 1) + 1 := by omega
  rw [hstep, Function.iterate_succ_apply']
  rw [iterate_midstage tr durs i hi (m - 1) (by omega)]
  rw [tick_run_eq _ (by simp [stateAt, Nat.not_le.mpr hi]) rfl (by simpa [stateAt] using hi)
    rfl rfl]
  rw [if_pos]
  · simp only [stateAt]
    rw [statuses_take_push (i + 1) (by omega)]
  · simp only [stateAt]
    have : ((m - 1 : ℕ) : ℚ) + 1 = (m : ℚ) := by
      have : ((m - 1 : ℕ) : ℚ) = (m : ℚ) - 1 := by
        push_cast [Nat.cast_sub hm1]
        ring
      rw [this]; ring
    rw [this]
    exact_mod_cast le_of_eq hmd.symm

/-- Total number of unit ticks consumed by the first `i` stages. -/
def sumTo (durs : List ℤ) (i : ℕ) : ℕ := ((durs.take i).map Int.toNat).sum

lemma cast_sum_map_toNat (l : List ℤ) (h : ∀ d ∈ l, 0 ≤ d) :
    ((l.map Int.toNat).sum : ℤ) = l.sum := by
  induction l with
  | nil => simp
  | cons a l ih =>
    simp only [List.map_cons, List.sum_cons]
    rw [Nat.cast_add, Int.toNat_of_nonneg (h a (by simp)),
      ih (fun d hd => h d (by simp [hd]))]

lemma take_succ_getD (durs : List ℤ) (i : ℕ) (h : i < durs.length) :
    durs.take (i + 1) = durs.take i ++ [durs.getD i 0] := by
  rw [List.take_succ]
  congr
  rw [List.getElem?_eq_getElem h]
  simp [List.getD_eq_getElem?_getD, List.getElem?_eq_getElem h]

lemma iterate_to_stage (tr : String) (durs : List ℤ) (h7 : durs.length = 7)
    (hpos : ∀ d ∈ durs, 1 ≤ d) :
    ∀ i, i ≤ 6 → tick^[sumTo durs i] (stateAt tr durs 0) = stateAt tr durs i := by
  intro i
  induction i with
  | zero => intro _; rfl
  | succ i ih =>
    intro hi6
    have hi : i < 6 := by omega
    have hlen : i < durs.length := by omega
    have hsum : sumTo durs (i + 1) = (durs.getD i 0).toNat + sumTo durs i := by
      unfold sumTo
      rw [take_succ_getD durs i hlen]
      simp [add_comm]
    have hmem : durs.getD i 0 ∈ durs := by
      rw [List.getD_eq_getElem?_getD, List.getElem?_eq_getElem hlen, Option.getD_some]
      exact List.getElem_mem hlen
    rw [hsum, Function.iterate_add_apply, ih (by omega)]
    exact iterate_stage tr durs i hi (hpos _ hmem)

/-- C9: a shipment created with `incidentDecision = false` and driven by unit
ticks (the source's 1-second tick) reaches, once the accumulated tick time is
at least `sum(stepDurations)`, the terminal state: `finished = true`,
`currentStepIndex = 6`, exactly 7 history entries (creation plus one per
stage transition) and no incident entry in its history.  It in fact finishes
earlier, after `sum` minus the last stage's duration many ticks, and then
stays fixed because finished shipments are excluded from the tick's query. -/
theorem no_incident_run_finishes (tr : String) (durs : List ℤ)
    (h7 : durs.length = 7) (hpos : ∀ d ∈ durs, 1 ≤ d) (n : ℕ)
    (hn : durs.sum ≤ (n : ℤ)) :
    (tick^[n] (generate_tracking_for tr durs false)).finished = true ∧
    (tick^[n] (generate_tracking_for tr durs false)).currentStepIndex = 6 ∧
    (tick^[n] (generate_tracking_for tr durs false)).history.length = 7 ∧
    "Incident signalé" ∉ (tick^[n] (generate_tracking_for tr durs false)).history := by
  have hinit : generate_tracking_for tr durs false = stateAt tr durs 0 := rfl
  have hcast : ((sumTo durs 6 : ℕ) : ℤ) = (durs.take 6).sum :=
    cast_sum_map_toNat _
      (fun d hd => le_trans (by norm_num) (hpos d (List.take_subset 6 durs hd)))
  have hdrop : 1 ≤ (durs.drop 6).sum := by
    have hlen : (durs.drop 6).length = 1 := by rw [List.length_drop, h7]
    obtain ⟨a, ha⟩ := List.length_eq_one.mp hlen
    have hamem : a ∈ durs := List.drop_subset 6 durs (by simp [ha])
    rw [ha]; simpa using hpos a hamem
  have hsum : (durs.take 6).sum + (durs.drop 6).sum = durs.sum := by
    rw [← List.sum_append, List.take_append_drop]
  have hlt : (sumTo durs 6 : ℤ) < (n : ℤ) := by omega
  obtain ⟨m, hm⟩ : ∃ m, n = m + sumTo durs 6 := ⟨n - sumTo durs 6, by omega⟩
  have hrun : tick^[n] (generate_tracking_for tr durs false) = stateAt tr durs 6 := by
    rw [hinit, hm, Function.iterate_add_apply, iterate_to_stage tr durs h7 hpos 6 le_rfl]
    exact Function.iterate_fixed (tick_finished_fixed _ rfl) m
  rw [hrun]
  refine ⟨rfl, rfl, ?_, ?_⟩
  · show (statuses.take 7).length = 7
    decide
  · show "Incident signalé" ∉ statuses.take 7
    decide

/-- Witness for C9: the concrete shipment `shipA` (durations summing to 49,
no incident eligibility) after 49 unit ticks. -/
theorem no_incident_run_finishes_witness :
    (tick^[49] shipA).finished = true ∧
    (tick^[49] shipA).currentStepIndex = 6 ∧
    (tick^[49] shipA).history.length = 7 ∧
    "Incident signalé" ∉ (tick^[49] shipA).history :=
  no_incident_run_finishes "11111111" [2, 8, 8, 22, 3, 3, 3] (by decide) (by decide)
    49 (by decide)

/-- An event touching one shipment's record, from the three concurrent
actors in the source: the Scheduler's loop (`read` is the tick's `find`
snapshot of this record, `write` the per-shipment `update_one` computed from
that snapshot — the loop holds no lock, so other actors may run between the
two), a Resolver thread's completion (`complete`, the `find_one` plus
`update_one` pair executed atomically under the global lock; the Bool is the
drawn outcome, `true` = cancelled), and the archive endpoint's write. -/
inductive Op where
  | read : Op
  | write : ℚ → ℕ → Op
  | complete : Bool → Op
  | archive : Op
deriving DecidableEq

/-- One shipment's record together with the Scheduler's outstanding snapshot
of it (`pending` holds between a tick's `find` and that tick's write for
this shipment; the Scheduler is one sequential thread, so reads and writes
alternate) and whether a spawned Resolver is still in flight. -/
structure Sys where
  stored : Shipment
  pending : Option Shipment
  inflight : Bool
deriving DecidableEq

/-- Small-step interleaving semantics for one shipment record.  `none` marks
an op that cannot occur at this point (a second `find` before the pending
write, a write without a preceding `find`, a completion with no Resolver in
flight).  The returned Bool reports whether the op spawned a Resolver. -/
def step (σ : Sys) : Op → Option (Sys × Bool)
  | Op.read =>
    match σ.pending with
    | none => some ({ σ with pending := some σ.stored }, false)
    | some _ => none
  | Op.write δ days =>
    match σ.pending with
    | none => none
    | some snap =>
      let u := schedUpdate snap δ days
      some ({ stored := (u.1.getD id) σ.stored, pending := none,
              inflight := σ.inflight || u.2 }, u.2)
  | Op.complete b =>
    if σ.inflight then
      some ({ stored := if b then cancelUpdate σ.stored else resumeUpdate σ.stored,
              pending := σ.pending, inflight := false }, false)
    else none
  | Op.archive =>
    some ({ σ with stored := { σ.stored with archived := true } }, false)

/-- Run a list of ops from a state, accumulating the number of spawns. -/
def runFrom (σ : Sys) (n : ℕ) : List Op → Option (Sys × ℕ)
  | [] => some (σ, n)
  | op :: ops =>
    match step σ op with
    | none => none
    | some (σ2, sp) => runFrom σ2 (n + (if sp then 1 else 0)) ops

/-- Run a list of ops from a state, starting the spawn count at zero. -/
def runOps (σ : Sys) (ops : List Op) : Option (Sys × ℕ) := runFrom σ 0 ops

/-- The model state for a freshly created shipment: no outstanding snapshot,
no Resolver in flight. -/
def initSys (tr : String) (durs : List ℤ) (inc : Bool) : Sys :=
  { stored := generate_tracking_for tr durs inc, pending := none, inflight := false }

/-- An on-hold snapshot at index 3 produces no write at all and spawns
nothing. -/
lemma schedUpdate_held_noop (snap : Shipment) (δ : ℚ) (days : ℕ)
    (hh : snap.onHold = true) (hi : snap.currentStepIndex = 3) :
    schedUpdate snap δ days = (none, false) := by
  unfold schedUpdate
  by_cases h1 : (snap.finished || snap.archived) = true
  · rw [if_pos h1]
  · rw [if_neg h1, if_neg (by omega : ¬ 6 ≤ snap.currentStepIndex), if_pos hh]

/-- A spawning tick write is exactly the trigger: it requires the snapshot
to be unfiltered, not on hold, at index 3, unchecked and incident-eligible,
and its write sets `incidentChecked`, the incident status and `onHold`, and
pushes one history entry. -/
lemma schedUpdate_spawn_eq (snap : Shipment) (δ : ℚ) (days : ℕ)
    (h : (schedUpdate snap δ days).2 = true) :
    snap.finished = false ∧ snap.archived = false ∧ snap.onHold = false ∧
    snap.currentStepIndex = 3 ∧ snap.incidentChecked = false ∧
    snap.incidentDecision = true ∧
    (schedUpdate snap δ days).1 = some (fun r =>
      { r with incidentChecked := true, status := incidentStatusMsg days,
               onHold := true, history := r.history ++ ["Incident signalé"] }) := by
  unfold schedUpdate at h ⊢
  by_cases h1 : (snap.finished || snap.archived) = true
  · rw [if_pos h1] at h; exact absurd h (by simp)
  · rw [if_neg h1] at h ⊢
    by_cases h2 : 6 ≤ snap.currentStepIndex
    · rw [if_pos h2] at h; exact absurd h (by simp)
    · rw [if_neg h2] at h ⊢
      by_cases h3 : snap.onHold = true
      · rw [if_pos h3] at h; exact absurd h (by simp)
      · rw [if_neg h3] at h ⊢
        by_cases h4 : snap.currentStepIndex = 3 ∧ snap.incidentChecked = false ∧
            snap.incidentDecision = true
        · have hor : snap.finished = false ∧ snap.archived = false := by
            revert h1; cases hf : snap.finished <;> cases ha : snap.archived <;> simp
          have h3f : snap.onHold = false := by
            revert h3; cases snap.onHold <;> simp
          refine ⟨hor.1, hor.2, h3f, h4.1, h4.2.1, h4.2.2, ?_⟩
          rw [if_pos h4]
        · rw [if_neg h4] at h
          exfalso
          revert h
          split <;> simp

/-- A non-spawning tick write never changes `incidentChecked`, whichever
branch produced it. -/
lemma schedUpdate_nospawn_checked (snap : Shipment) (δ : ℚ) (days : ℕ)
    (h : (schedUpdate snap δ days).2 = false) (r : Shipment) :
    (((schedUpdate snap δ days).1.getD id) r).incidentChecked = r.incidentChecked := by
  unfold schedUpdate at h ⊢
  by_cases h1 : (snap.finished || snap.archived) = true
  · rw [if_pos h1]; rfl
  · rw [if_neg h1] at h ⊢
    by_cases h2 : 6 ≤ snap.currentStepIndex
    · rw [if_pos h2]; rfl
    · rw [if_neg h2] at h ⊢
      by_cases h3 : snap.onHold = true
      · rw [if_pos h3]; rfl
      · rw [if_neg h3] at h ⊢
        by_cases h4 : snap.currentStepIndex = 3 ∧ snap.incidentChecked = false ∧
            snap.incidentDecision = true
        · rw [if_pos h4] at h; exact absurd h (by simp)
        · rw [if_neg h4]
          split <;> rfl

/-- Every tick write leaves `archived` untouched and preserves
`finished = true`. -/
lemma schedUpdate_mono (snap : Shipment) (δ : ℚ) (days : ℕ) (r : Shipment) :
    (((schedUpdate snap δ days).1.getD id) r).archived = r.archived ∧
    (r.finished = true → (((schedUpdate snap δ days).1.getD id) r).finished = true) := by
  unfold schedUpdate
  by_cases h1 : (snap.finished || snap.archived) = true
  · rw [if_pos h1]; exact ⟨rfl, fun hf => hf⟩
  · rw [if_neg h1]
    by_cases h2 : 6 ≤ snap.currentStepIndex
    · rw [if_pos h2]; exact ⟨rfl, fun _ => rfl⟩
    · rw [if_neg h2]
      by_cases h3 : snap.onHold = true
      · rw [if_pos h3]; exact ⟨rfl, fun hf => hf⟩
      · rw [if_neg h3]
        by_cases h4 : snap.currentStepIndex = 3 ∧ snap.incidentChecked = false ∧
            snap.incidentDecision = true
        · rw [if_pos h4]; exact ⟨rfl, fun hf => hf⟩
        · rw [if_neg h4]
          split
          · refine ⟨rfl, fun hf => ?_⟩
            show (if 6 ≤ snap.currentStepIndex + 1 then true else r.finished) = true
            split
            · rfl
            · exact hf
          · exact ⟨rfl, fun hf => hf⟩

/-- The reachability invariant of the interleaving model, carried together
with the spawn count `n`: at most one spawn has happened; while a Resolver
is in flight the stored record is on hold at index 3 with `incidentChecked`
set, and so is any outstanding snapshot; a not-on-hold snapshot agrees with
the stored record on the fields the trigger reads (only `complete` writes
between a `find` and its write, and it requires a Resolver in flight, which
forces the snapshot on hold); once a spawn happened, `incidentChecked` is
set in the record and in any outstanding snapshot. -/
def SysInv (σ : Sys) (n : ℕ) : Prop :=
  n ≤ 1 ∧
  (σ.inflight = true →
    σ.stored.onHold = true ∧ σ.stored.currentStepIndex = 3 ∧
    σ.stored.incidentChecked = true) ∧
  (∀ snap, σ.pending = some snap → σ.inflight = true →
    snap.onHold = true ∧ snap.currentStepIndex = 3) ∧
  (∀ snap, σ.pending = some snap → snap.onHold = false →
    snap.currentStepIndex = σ.stored.currentStepIndex ∧
    snap.incidentChecked = σ.stored.incidentChecked) ∧
  (1 ≤ n → σ.stored.incidentChecked = true) ∧
  (∀ snap, σ.pending = some snap → 1 ≤ n → snap.incidentChecked = true)

lemma initSys_inv (tr : String) (durs : List ℤ) (inc : Bool) :
    SysInv (initSys tr durs inc) 0 := by
  refine ⟨by omega, ?_, ?_, ?_, ?_, ?_⟩
  · intro h; exact absurd h (by simp [initSys])
  · intro snap hsnap; exact absurd hsnap (by simp [initSys])
  · intro snap hsnap; exact absurd hsnap (by simp [initSys])
  · intro h; omega
  · intro snap hsnap; exact absurd hsnap (by simp [initSys])

lemma step_preserves_inv (σ : Sys) (n : ℕ) (op : Op) (res : Sys × Bool)
    (hinv : SysInv σ n) (hs : step σ op = some res) :
    SysInv res.1 (n + if res.2 then 1 else 0) := by
  obtain ⟨hI0, hI1, hI2, hI3, hI4, hI5⟩ := hinv
  cases op with
  | read =>
    cases hp : σ.pending with
    | some s => simp [step, hp] at hs
    | none =>
      simp only [step, hp, Option.some.injEq] at hs
      subst hs
      refine ⟨hI0, hI1, ?_, ?_, hI4, ?_⟩
      · intro snap hsnap hin
        injection hsnap with hsnap
        subst hsnap
        exact ⟨(hI1 hin).1, (hI1 hin).2.1⟩
      · intro snap hsnap hhold
        injection hsnap with hsnap
        subst hsnap
        exact ⟨rfl, rfl⟩
      · intro snap hsnap hn
        injection hsnap with hsnap
        subst hsnap
        exact hI4 hn
  | write δ days =>
    cases hp : σ.pending with
    | none => simp [step, hp] at hs
    | some snap =>
      simp only [step, hp, Option.some.injEq] at hs
      subst hs
      cases hu2 : (schedUpdate snap δ days).2 with
      | false =>
        refine ⟨by exact hI0, ?_, ?_, ?_, ?_, ?_⟩
        · intro hin
          simp only [Bool.or_false] at hin
          obtain ⟨ho, hi3⟩ := hI2 snap hp hin
          have hnoop := schedUpdate_held_noop snap δ days ho hi3
          simp only [hnoop, Option.getD_none]
          exact hI1 hin
        · intro snap2 hsnap2; exact absurd hsnap2 (by simp)
        · intro snap2 hsnap2; exact absurd hsnap2 (by simp)
        · intro hn
          have := schedUpdate_nospawn_checked snap δ days hu2 σ.stored
          simp only [this]
          exact hI4 hn
        · intro snap2 hsnap2; exact absurd hsnap2 (by simp)
      | true =>
        obtain ⟨hfin, harch, hhold, hi3, hchk, hdec, hf⟩ :=
          schedUpdate_spawn_eq snap δ days hu2
        have hn0 : n = 0 := by
          by_contra hne
          have h1n : 1 ≤ n := by omega
          have := hI5 snap hp h1n
          rw [hchk] at this
          exact absurd this (by simp)
        have hidx : σ.stored.currentStepIndex = 3 := by
          have := (hI3 snap hp hhold).1
          omega
        refine ⟨by subst hn0; exact Nat.le_refl 1, ?_, ?_, ?_, ?_, ?_⟩
        · intro _
          simp only [hf, Option.getD_some]
          refine ⟨by trivial, by exact hidx, by trivial⟩
        · intro snap2 hsnap2; exact absurd hsnap2 (by simp)
        · intro snap2 hsnap2; exact absurd hsnap2 (by simp)
        · intro _
          simp only [hf, Option.getD_some]
        · intro snap2 hsnap2; exact absurd hsnap2 (by simp)
  | complete b =>
    cases hin : σ.inflight with
    | false => simp [step, hin] at hs
    | true =>
      simp only [step, hin, if_true, Option.some.injEq] at hs
      subst hs
      refine ⟨hI0, ?_, ?_, ?_, ?_, ?_⟩
      · intro h; exact absurd h (by simp)
      · intro snap hsnap h; exact absurd h (by simp)
      · intro snap hsnap hhold
        have := (hI2 snap hsnap hin).1
        rw [this] at hhold
        exact absurd hhold (by simp)
      · intro hn
        cases b <;> simpa [cancelUpdate, resumeUpdate] using hI4 hn
      · intro snap hsnap hn
        exact hI5 snap hsnap hn
  | archive =>
    simp only [step, Option.some.injEq] at hs
    subst hs
    exact ⟨hI0, hI1, hI2, hI3, hI4, hI5⟩

lemma runFrom_inv : ∀ (ops : List Op) (σ : Sys) (n : ℕ) (res : Sys × ℕ),
    SysInv σ n → runFrom σ n ops = some res → SysInv res.1 res.2 := by
  intro ops
  induction ops with
  | nil =>
    intro σ n res hinv h
    simp only [runFrom, Option.some.injEq] at h
    subst h
    exact hinv
  | cons op ops ih =>
    intro σ n res hinv h
    simp only [runFrom] at h
    cases hstep : step σ op with
    | none => rw [hstep] at h; exact Option.noConfusion h
    | some val =>
      rw [hstep] at h
      exact ih val.1 _ res (step_preserves_inv σ n op val hinv hstep) h

/-- The four-tick trace driving the witness shipment to the transit stage
and triggering its incident: three advancing ticks and the trigger tick. -/
def opsSpawn : List Op :=
  [Op.read, Op.write 1 5, Op.read, Op.write 1 5, Op.read, Op.write 1 5,
   Op.read, Op.write 1 5]

/-- The witness record right after its incident was triggered. -/
def recSpawned : Shipment :=
  { tracking := "W"
    status := incidentStatusMsg 5
    history := ["Commande confirmée", "Colis préparé",
      "Pris en charge par le transporteur", "En transit", "Incident signalé"]
    currentStepIndex := 3
    finished := false
    onHold := true
    stepDurations := [1, 1, 1, 1, 1, 1, 1]
    timeInStep := 0
    incidentDecision := true
    incidentChecked := true
    archived := false }

lemma runOps_opsSpawn :
    runOps (initSys "W" [1, 1, 1, 1, 1, 1, 1] true) opsSpawn =
      some (⟨recSpawned, none, true⟩, 1) := by
  norm_num [runOps, runFrom, step, initSys, generate_tracking_for, schedUpdate,
    opsSpawn, recSpawned, statuses]

/-- C5: over every valid interleaving of Scheduler reads and writes,
Resolver completions and archive writes, starting from a freshly created
shipment, at most one Resolver is ever spawned: the trigger sets
`incidentChecked = true` in the same atomic `update_one` that declares the
incident, no operation ever clears `incidentChecked`, and the trigger
requires it clear — so the trigger condition can hold on at most one tick. -/
theorem resolver_spawned_at_most_once (tr : String) (durs : List ℤ) (inc : Bool)
    (ops : List Op) (res : Sys × ℕ)
    (h : runOps (initSys tr durs inc) ops = some res) : res.2 ≤ 1 :=
  (runFrom_inv ops (initSys tr durs inc) 0 res (initSys_inv tr durs inc) h).1

/-- Witness for C5: the concrete spawning trace spawns exactly once. -/
theorem resolver_spawned_at_most_once_witness :
    ((⟨recSpawned, none, true⟩, 1) : Sys × ℕ).2 ≤ 1 :=
  resolver_spawned_at_most_once "W" [1, 1, 1, 1, 1, 1, 1] true opsSpawn
    (⟨recSpawned, none, true⟩, 1) runOps_opsSpawn

/-- C2: a Scheduler tick's read-decide-write on a shipment and its
Resolver's completion write never interleave their reads and writes: in
every reachable state in which a Resolver completion can occur (one is in
flight) while the Scheduler holds an outstanding tick snapshot of the
record, the pending write is no write at all (the snapshot is on hold at
index 3, so the tick performs no `update_one` and spawns nothing).  Hence
the Resolver's lock-protected completion write can never fall between a
Scheduler read and a Scheduler mutation derived from that read: every
read-modify-write that does write is exclusive at record granularity. -/
theorem sched_resolver_never_interleave (tr : String) (durs : List ℤ) (inc : Bool)
    (ops : List Op) (res : Sys × ℕ)
    (h : runOps (initSys tr durs inc) ops = some res)
    (hin : res.1.inflight = true) :
    ∀ snap, res.1.pending = some snap → ∀ (δ : ℚ) (days : ℕ),
      schedUpdate snap δ days = (none, false) := by
  obtain ⟨-, -, hI2, -, -, -⟩ := runFrom_inv ops (initSys tr durs inc) 0 res
    (initSys_inv tr durs inc) h
  intro snap hsnap δ days
  obtain ⟨ho, hi3⟩ := hI2 snap hsnap hin
  exact schedUpdate_held_noop snap δ days ho hi3

/-- The spawning trace followed by the next tick's read of the record. -/
def opsSpawnRead : List Op := opsSpawn ++ [Op.read]

lemma runOps_opsSpawnRead :
    runOps (initSys "W" [1, 1, 1, 1, 1, 1, 1] true) opsSpawnRead =
      some (⟨recSpawned, some recSpawned, true⟩, 1) := by
  norm_num [runOps, runFrom, step, initSys, generate_tracking_for, schedUpdate,
    opsSpawn, opsSpawnRead, recSpawned, statuses]

/-- Witness for C2: with the Resolver of the witness shipment in flight and
the next tick's snapshot outstanding, the tick's write is no write. -/
theorem sched_resolver_never_interleave_witness :
    schedUpdate recSpawned 1 0 = (none, false) :=
  sched_resolver_never_interleave "W" [1, 1, 1, 1, 1, 1, 1] true opsSpawnRead
    (⟨recSpawned, some recSpawned, true⟩, 1) runOps_opsSpawnRead rfl recSpawned rfl 1 0

/-- C10: `finished` and `archived` are monotone under every operation of the
model — a Scheduler tick write, a Resolver completion and the archive
endpoint never turn them from true back to false — and a Resolver
completion (in particular against an already archived record) still writes
status and history (exactly one appended entry) but never touches
`archived`. -/
theorem finished_archived_monotone (σ : Sys) (op : Op) (res : Sys × Bool)
    (h : step σ op = some res) :
    (σ.stored.finished = true → res.1.stored.finished = true) ∧
    (σ.stored.archived = true → res.1.stored.archived = true) ∧
    (∀ b, op = Op.complete b →
      res.1.stored.archived = σ.stored.archived ∧
      res.1.stored.history.length = σ.stored.history.length + 1) := by
  cases op with
  | read =>
    cases hp : σ.pending with
    | some s => simp [step, hp] at h
    | none =>
      simp only [step, hp, Option.some.injEq] at h
      subst h
      exact ⟨fun hf => hf, fun ha => ha, fun b hb => Op.noConfusion hb⟩
  | write δ days =>
    cases hp : σ.pending with
    | none => simp [step, hp] at h
    | some snap =>
      simp only [step, hp, Option.some.injEq] at h
      subst h
      obtain ⟨hmarch, hmfin⟩ := schedUpdate_mono snap δ days σ.stored
      refine ⟨hmfin, ?_, fun b hb => Op.noConfusion hb⟩
      intro ha
      have h2 : (((schedUpdate snap δ days).1.getD id) σ.stored).archived = true := by
        rw [hmarch]; exact ha
      exact h2
  | complete b =>
    cases hin : σ.inflight with
    | false => simp [step, hin] at h
    | true =>
      simp only [step, hin, if_true, Option.some.injEq] at h
      subst h
      cases b
      · refine ⟨fun hf => hf, fun ha => ha, ?_⟩
        intro b2 hb2
        exact ⟨rfl, by simp [resumeUpdate]⟩
      · refine ⟨fun _ => rfl, fun ha => ha, ?_⟩
        intro b2 hb2
        exact ⟨rfl, by simp [cancelUpdate]⟩
  | archive =>
    simp only [step, Option.some.injEq] at h
    subst h
    exact ⟨fun hf => hf, fun _ => rfl, fun b hb => Op.noConfusion hb⟩

/-- The C10 witness record: already archived, with its Resolver in flight. -/
def shipArchived : Shipment := { shipA with archived := true }

/-- Witness for C10: a Resolver resuming an already archived shipment
appends one history entry and leaves `archived` untouched. -/
theorem finished_archived_monotone_witness :
    (resumeUpdate shipArchived).archived = shipArchived.archived ∧
    (resumeUpdate shipArchived).history.length = shipArchived.history.length + 1 :=
  (finished_archived_monotone ⟨shipArchived, none, true⟩ (Op.complete false)
    (⟨resumeUpdate shipArchived, none, false⟩, false) rfl).2.2 false rfl
